import Mathlib

/-!
Verification of the cang language engine: shallow embedding of the lexer
(`tokenize` in src/lib.rs), the recursive-descent parser (src/parser.rs),
the cost calculator / validator (src/resource_validator.rs), the coin
ledger (src/coin_manager.rs), the tree-walking evaluator
(`eval_with_output` in src/parser.rs) and the orchestrator
(`eval_with_validation` in src/parser.rs).

Modelling conventions:
* Rust `i64` is modelled as `Int`; `+ - *` wrap to the 64-bit range
  (two's complement), `/` is truncating division (`Int.tdiv`) and, as in
  Rust, panics on `i64::MIN / -1` (overflow is checked for division in
  every build profile).
* A Rust panic (an `unwrap` failure, a division overflow, or unbounded
  recursion / stack exhaustion) is modelled as `none`; recursive
  functions take a fuel argument, and exhausted fuel is also `none`.
  Fallible code returns `Except` inside the `Option`.
* `HashMap<CoinType, u32>` (two possible keys) is modelled as two
  `Option Nat` fields; `HashMap<String, Expr>` as an association list
  whose insert prepends (lookup finds the newest binding, matching the
  map's overwrite semantics).
* `ResourceValidator` is a newtype around `CoinManager`; its methods are
  modelled as functions on `CoinManager` directly.
-/

deriving instance DecidableEq for Except

/-- `CoinType` from src/coin_manager.rs. -/
inductive CoinType : Type
  | Variable
  | Function
deriving DecidableEq

/-- `CoinError` from src/coin_manager.rs. -/
inductive CoinError : Type
  | InsufficientFunds (required : Nat) (available : Nat) (coin_type : CoinType)
  | InvalidCoinType
deriving DecidableEq

/-- `CoinCost` from src/resource_validator.rs. -/
structure CoinCost : Type where
  coin_type : CoinType
  amt : Nat
deriving DecidableEq

/-- `ValidationError` from src/resource_validator.rs. -/
inductive ValidationError : Type
  | CoinError (e : CoinError)
  | ParseError (msg : String)
  | RuntimeError (msg : String)
deriving DecidableEq

/-- `CoinManager` from src/coin_manager.rs: `balances: HashMap<CoinType, u32>`,
one optional entry per coin type. -/
structure CoinManager : Type where
  varBalance : Option Nat
  funcBalance : Option Nat
deriving DecidableEq

/-- `self.balances.get(&coin_type)` on the two-key map. -/
def CoinManager.getEntry (cm : CoinManager) : CoinType → Option Nat
  | .Variable => cm.varBalance
  | .Function => cm.funcBalance

/-- `self.balances.insert(coin_type, v)`. -/
def CoinManager.insertBalance (cm : CoinManager) (ct : CoinType) (v : Nat) : CoinManager :=
  match ct with
  | .Variable => ⟨some v, cm.funcBalance⟩
  | .Function => ⟨cm.varBalance, some v⟩

/-- `CoinManager::get_balance`: `*self.balances.get(&coin_type).unwrap_or(&0)`. -/
def CoinManager.get_balance (cm : CoinManager) (ct : CoinType) : Nat :=
  (cm.getEntry ct).getD 0

/-- `CoinManager::with_balances`. -/
def CoinManager.with_balances (variable_coins function_coins : Nat) : CoinManager :=
  ⟨some variable_coins, some function_coins⟩

/-- `CoinManager::new`: default 10 Variable, 3 Function. -/
def CoinManager.new : CoinManager :=
  CoinManager.with_balances 10 3

/-- `CoinManager::spend_coins`: check the current balance, fail with
`InsufficientFunds` when it is below `amt`, otherwise store the decremented
balance. On failure the Rust method returns before mutating, so the model
returns only the error. -/
def CoinManager.spend_coins (cm : CoinManager) (ct : CoinType) (amt : Nat) :
    Except CoinError CoinManager :=
  let current_balance := cm.get_balance ct
  if current_balance < amt then
    .error (.InsufficientFunds amt current_balance ct)
  else
    .ok (cm.insertBalance ct (current_balance - amt))

/-- `CoinManager::spend_var_coin`. -/
def CoinManager.spend_var_coin (cm : CoinManager) : Except CoinError CoinManager :=
  cm.spend_coins .Variable 1

/-- `CoinManager::spend_func_coin`. -/
def CoinManager.spend_func_coin (cm : CoinManager) : Except CoinError CoinManager :=
  cm.spend_coins .Function 1

example : (CoinManager.with_balances 5 3).spend_coins .Variable 7 =
    .error (.InsufficientFunds 7 5 .Variable) := by decide

example : (CoinManager.with_balances 5 3).spend_coins .Variable 2 =
    .ok ⟨some 3, some 3⟩ := by decide

/-- `TokenTypes` from src/lib.rs. -/
inductive TokenTypes : Type
  | Number | Plus | Minus | Star | Slash | LParen | RParen | Let | Identifier
  | Eq | Fn | LCurly | RCurly | Semicolon | Comma | Print | String
deriving DecidableEq

/-- `Token` from src/lib.rs. -/
structure Token : Type where
  token_type : TokenTypes
  value : Option String
  pos : Nat × Nat
deriving DecidableEq

/-- The character class of the first lexer match arm, Rust
`'a'..='z' | 'A'..='Z' | '_'`. -/
def isIdentStart (c : Char) : Bool :=
  (decide ('a' ≤ c) && decide (c ≤ 'z'))
    || (decide ('A' ≤ c) && decide (c ≤ 'Z')) || c == '_'

/-- The inner identifier loop of `tokenize`: consume while
`is_alphanumeric() || c == '_'`, counting columns. Returns the identifier
text, the remaining input and the updated column. -/
def lexIdent : List Char → String → Nat → String × List Char × Nat
  | [], acc, col => (acc, [], col)
  | c :: rest, acc, col =>
    if c.isAlphanum || c == '_' then lexIdent rest (acc.push c) (col + 1)
    else (acc, c :: rest, col)

/-- The inner number loop of `tokenize`: consume while `is_ascii_digit()`. -/
def lexNumber : List Char → String → Nat → String × List Char × Nat
  | [], acc, col => (acc, [], col)
  | c :: rest, acc, col =>
    if c.isDigit then lexNumber rest (acc.push c) (col + 1)
    else (acc, c :: rest, col)

/-- The inner string-literal loop of `tokenize` (after the opening quote is
consumed): handles the escapes `\n \t \r \\ \"`, pushes any other escaped
character literally after its backslash, stops at the closing quote or,
silently, at end of input. -/
def lexString : Nat → List Char → String → Nat → String × List Char × Nat
  | _, [], acc, col => (acc, [], col)
  | 0, cs, acc, col => (acc, cs, col)
  | fuel + 1, c :: rest, acc, col =>
    if c == '"' then (acc, rest, col + 1)
    else if c == '\\' then
      match rest with
      | [] => (acc, [], col + 1)
      | e :: rest2 =>
        let acc2 :=
          if e == 'n' then acc.push '\n'
          else if e == 't' then acc.push '\t'
          else if e == 'r' then acc.push '\r'
          else if e == '\\' then acc.push '\\'
          else if e == '"' then acc.push '"'
          else (acc.push '\\').push e
        lexString fuel rest2 acc2 (col + 2)
    else lexString fuel rest (acc.push c) (col + 1)

/-- The main loop of `tokenize` (src/lib.rs): one iteration per Rust
`while let Some(&ch) = chars.peek()` iteration, with the same arm order.
Each iteration consumes at least one character, so fuel
`input.length + 1` never runs out. -/
def tokenizeLoop : Nat → List Char → Nat → Nat → List Token
  | 0, _, _, _ => []
  | _, [], _, _ => []
  | fuel + 1, c :: rest, line, col =>
    if isIdentStart c then
      let (ident, rest1, col1) := lexIdent (c :: rest) "" col
      let token_type : TokenTypes :=
        if ident == "let" then .Let
        else if ident == "fn" then .Fn
        else if ident == "print" then .Print
        else .Identifier
      ⟨token_type, some ident, (line, col1)⟩ :: tokenizeLoop fuel rest1 line col1
    else if c.isDigit then
      let (num, rest1, col1) := lexNumber (c :: rest) "" col
      ⟨.Number, some num, (line, col1)⟩ :: tokenizeLoop fuel rest1 line col1
    else if c == '+' then ⟨.Plus, none, (line, col + 1)⟩ :: tokenizeLoop fuel rest line (col + 1)
    else if c == '-' then ⟨.Minus, none, (line, col + 1)⟩ :: tokenizeLoop fuel rest line (col + 1)
    else if c == '*' then ⟨.Star, none, (line, col + 1)⟩ :: tokenizeLoop fuel rest line (col + 1)
    else if c == '/' then ⟨.Slash, none, (line, col + 1)⟩ :: tokenizeLoop fuel rest line (col + 1)
    else if c == '(' then ⟨.LParen, none, (line, col + 1)⟩ :: tokenizeLoop fuel rest line (col + 1)
    else if c == ')' then ⟨.RParen, none, (line, col + 1)⟩ :: tokenizeLoop fuel rest line (col + 1)
    else if c == '{' then ⟨.LCurly, none, (line, col + 1)⟩ :: tokenizeLoop fuel rest line (col + 1)
    else if c == '}' then ⟨.RCurly, none, (line, col + 1)⟩ :: tokenizeLoop fuel rest line (col + 1)
    else if c == '=' then ⟨.Eq, none, (line, col + 1)⟩ :: tokenizeLoop fuel rest line (col + 1)
    else if c == ';' then ⟨.Semicolon, none, (line, col + 1)⟩ :: tokenizeLoop fuel rest line (col + 1)
    else if c == ',' then ⟨.Comma, none, (line, col + 1)⟩ :: tokenizeLoop fuel rest line (col + 1)
    else if c == ' ' || c == '\t' then tokenizeLoop fuel rest line (col + 1)
    else if c == '\n' then tokenizeLoop fuel rest (line + 1) 0
    else if c == '"' then
      let (s, rest1, col1) := lexString (rest.length + 1) rest "" (col + 1)
      ⟨.String, some s, (line, col1)⟩ :: tokenizeLoop fuel rest1 line col1
    else tokenizeLoop fuel rest line (col + 1)

/-- `tokenize` from src/lib.rs. -/
def tokenize (input : String) : List Token :=
  tokenizeLoop (input.length + 1) input.data 1 0

example : tokenize "1 / 0" =
    [⟨.Number, some "1", (1, 1)⟩, ⟨.Slash, none, (1, 3)⟩, ⟨.Number, some "0", (1, 5)⟩] := by
  decide

/-- Plain `String`, under a name the constructor names of `Expr` and
`TokenTypes` cannot shadow. -/
abbrev Str : Type := String

/-- `Expr` from src/parser.rs: the AST. `Number` carries a Rust `i64`,
modelled as `Int` (the parser only ever constructs in-range values). -/
inductive Expr : Type
  | Number (n : Int)
  | Binary (lhs : Expr) (op : TokenTypes) (rhs : Expr)
  | Let (name : Str) (val : Expr)
  | FnDef (name : Str) (params : List Str) (body : Expr)
  | FnCall (name : Str) (args : List Expr)
  | Var (name : Str)
  | Block (statements : List Expr)
  | Print (e : Expr)
  | String (s : Str)

/-- `ParseError` from src/parser.rs. -/
inductive ParseError : Type
  | UnexpectedToken (msg : String)
  | ExpectedToken (msg : String)
  | UnexpectedEof
deriving DecidableEq

/-- Rust `str::parse::<i64>`: optional sign, at least one ASCII digit,
result within the `i64` range, otherwise failure. The lexer only ever
produces unsigned digit runs, for which this is exact. -/
def parseI64 (s : String) : Option Int :=
  match s.data with
  | [] => none
  | c :: rest =>
    let (neg, digits) :=
      if c == '-' then (true, rest)
      else if c == '+' then (false, rest)
      else (false, c :: rest)
    if digits.isEmpty then none
    else if digits.all (fun d => d.isDigit) then
      let n : Nat := digits.foldl (fun acc d => acc * 10 + (d.toNat - 48)) 0
      if neg then
        if n ≤ 2 ^ 63 then some (-(n : Int)) else none
      else
        if n ≤ 2 ^ 63 - 1 then some (n : Int) else none
    else none

/-- The variant name, as Rust `derive(Debug)` prints it for `TokenTypes`. -/
def TokenTypes.debugStr : TokenTypes → Str
  | .Number => "Number"
  | .Plus => "Plus"
  | .Minus => "Minus"
  | .Star => "Star"
  | .Slash => "Slash"
  | .LParen => "LParen"
  | .RParen => "RParen"
  | .Let => "Let"
  | .Identifier => "Identifier"
  | .Eq => "Eq"
  | .Fn => "Fn"
  | .LCurly => "LCurly"
  | .RCurly => "RCurly"
  | .Semicolon => "Semicolon"
  | .Comma => "Comma"
  | .Print => "Print"
  | .String => "String"

/-- Rust `format!("{:?}", token)` for the derived `Debug` of `Token`
(string contents are assumed to need no escaping, which holds for every
token this development inspects). -/
def Token.debugStr (t : Token) : String :=
  "Token \x7b token_type: " ++ t.token_type.debugStr ++ ", value: "
    ++ (match t.value with
        | none => "None"
        | some s => "Some(\"" ++ s ++ "\")")
    ++ ", pos: (" ++ toString t.pos.1 ++ ", " ++ toString t.pos.2 ++ ") \x7d"

/-- The `Parser` struct from src/parser.rs: token buffer and cursor. -/
structure Parser : Type where
  tokens : List Token
  pos : Nat
deriving DecidableEq

/-- `Parser::peek`. -/
def Parser.peek (p : Parser) : Option Token :=
  p.tokens.get? p.pos

/-- `Parser::eat`: the token under the cursor (if any) and the parser with
the cursor advanced. -/
def Parser.eat (p : Parser) : Option Token × Parser :=
  (p.tokens.get? p.pos, ⟨p.tokens, p.pos + 1⟩)

/-- Result of a parsing step: `none` models a Rust panic (or exhausted
fuel); otherwise a `ParseError` value or the parsed item with the
advanced parser. -/
def PResult (α : Type) : Type :=
  Option (Except ParseError (α × Parser))

mutual

/-- `Parser::parse_expr` (src/parser.rs): a term followed by the
`(('+'|'-') term)*` loop, left-associative. -/
def parse_expr : Nat → Parser → PResult Expr
  | 0, _ => none
  | fuel + 1, p =>
    match parse_term fuel p with
    | none => none
    | some (.error e) => some (.error e)
    | some (.ok (node, p1)) => parseExprLoop fuel node p1

/-- The `while` loop of `parse_expr`. -/
def parseExprLoop : Nat → Expr → Parser → PResult Expr
  | 0, _, _ => none
  | fuel + 1, node, p =>
    match p.peek with
    | some tok =>
      if tok.token_type == .Plus || tok.token_type == .Minus then
        match p.eat with
        | (some t, p1) =>
          match parse_term fuel p1 with
          | none => none
          | some (.error e) => some (.error e)
          | some (.ok (rhs, p2)) => parseExprLoop fuel (.Binary node t.token_type rhs) p2
        | (none, _) => none
      else some (.ok (node, p))
    | none => some (.ok (node, p))

/-- `Parser::parse_term`: a factor followed by the `(('*'|'/') factor)*`
loop. -/
def parse_term : Nat → Parser → PResult Expr
  | 0, _ => none
  | fuel + 1, p =>
    match parse_factor fuel p with
    | none => none
    | some (.error e) => some (.error e)
    | some (.ok (node, p1)) => parseTermLoop fuel node p1

/-- The `while` loop of `parse_term`. -/
def parseTermLoop : Nat → Expr → Parser → PResult Expr
  | 0, _, _ => none
  | fuel + 1, node, p =>
    match p.peek with
    | some tok =>
      if tok.token_type == .Star || tok.token_type == .Slash then
        match p.eat with
        | (some t, p1) =>
          match parse_factor fuel p1 with
          | none => none
          | some (.error e) => some (.error e)
          | some (.ok (rhs, p2)) => parseTermLoop fuel (.Binary node t.token_type rhs) p2
        | (none, _) => none
      else some (.ok (node, p))
    | none => some (.ok (node, p))

/-- `Parser::parse_factor`. The `Number` arm runs
`tok.value.unwrap().parse::<i64>().unwrap()`: a missing value or an
out-of-range digit string is a panic (`none`). -/
def parse_factor : Nat → Parser → PResult Expr
  | 0, _ => none
  | fuel + 1, p =>
    match p.eat with
    | (some tok, p1) =>
      if tok.token_type == .Number then
        match tok.value with
        | none => none
        | some s =>
          match parseI64 s with
          | none => none
          | some n => some (.ok (.Number n, p1))
      else if tok.token_type == .String then
        match tok.value with
        | none => none
        | some s => some (.ok (.String s, p1))
      else if tok.token_type == .Identifier then
        match tok.value with
        | none => none
        | some name =>
          match p1.peek with
          | some next =>
            if next.token_type == .LParen then
              parseArgsLoop fuel name [] (p1.eat).2
            else some (.ok (.Var name, p1))
          | none => some (.ok (.Var name, p1))
      else if tok.token_type == .LParen then
        match parse_expr fuel p1 with
        | none => none
        | some (.error e) => some (.error e)
        | some (.ok (expr, p2)) =>
          match p2.eat with
          | (some t, p3) =>
            if t.token_type == .RParen then some (.ok (expr, p3))
            else some (.error (.ExpectedToken "closing parenthesis"))
          | (none, _) => some (.error (.ExpectedToken "closing parenthesis"))
      else some (.error (.UnexpectedToken tok.debugStr))
    | (none, _) => some (.error .UnexpectedEof)

/-- The argument-list `while` loop of `parse_factor`: `)` ends the list,
after an argument a `,` continues and a `)` is left for the next
iteration; end of input silently ends the call. -/
def parseArgsLoop : Nat → String → List Expr → Parser → PResult Expr
  | 0, _, _, _ => none
  | fuel + 1, name, args, p =>
    match p.peek with
    | none => some (.ok (.FnCall name args, p))
    | some tok =>
      if tok.token_type == .RParen then
        some (.ok (.FnCall name args, (p.eat).2))
      else
        match parse_expr fuel p with
        | none => none
        | some (.error e) => some (.error e)
        | some (.ok (argE, p1)) =>
          match p1.peek with
          | some next =>
            if next.token_type == .Comma then
              parseArgsLoop fuel name (args ++ [argE]) (p1.eat).2
            else if next.token_type == .RParen then
              parseArgsLoop fuel name (args ++ [argE]) p1
            else some (.error (.ExpectedToken "',' or ')' after function argument"))
          | none => parseArgsLoop fuel name (args ++ [argE]) p1

end

/-- The parameter-list `while` loop of `Parser::parse_fn_def`. An
`Identifier` token is eaten and its value unwrapped (a missing value is a
panic); end of input exits the loop without consuming a `)`. -/
def parseParamsLoop : Nat → List String → Parser → PResult (List String)
  | 0, _, _ => none
  | fuel + 1, params, p =>
    match p.peek with
    | none => some (.ok (params, p))
    | some tok =>
      match tok.token_type with
      | .Identifier =>
        match p.eat with
        | (some t, p1) =>
          match t.value with
          | none => none
          | some id =>
            match p1.peek with
            | some next =>
              if next.token_type == .Comma then
                parseParamsLoop fuel (params ++ [id]) (p1.eat).2
              else if next.token_type == .RParen then
                parseParamsLoop fuel (params ++ [id]) p1
              else some (.error (.ExpectedToken "',' or ')' after parameter"))
            | none => parseParamsLoop fuel (params ++ [id]) p1
        | (none, _) => none
      | .RParen => some (.ok (params, (p.eat).2))
      | _ => some (.error (.UnexpectedToken ("in parameter list: " ++ tok.debugStr)))

/-- `Parser::parse_fn_def`: `fn`, name, `(`, parameters, `{`, a single
`expr` body, `}`. -/
def parse_fn_def (fuel : Nat) (p : Parser) : PResult Expr :=
  let p1 := (p.eat).2
  match p1.eat with
  | (some ⟨.Identifier, some name, _⟩, p2) =>
    (match p2.eat with
     | (some ⟨.LParen, _, _⟩, p3) =>
       (match parseParamsLoop fuel [] p3 with
        | none => none
        | some (.error e) => some (.error e)
        | some (.ok (params, p4)) =>
          match p4.eat with
          | (some ⟨.LCurly, _, _⟩, p5) =>
            (match parse_expr fuel p5 with
             | none => none
             | some (.error e) => some (.error e)
             | some (.ok (body, p6)) =>
               match p6.eat with
               | (some ⟨.RCurly, _, _⟩, p7) => some (.ok (.FnDef name params body, p7))
               | _ => some (.error (.ExpectedToken "'\x7d' at end of function body")))
          | _ => some (.error (.ExpectedToken "'\x7b' before function body")))
     | _ => some (.error (.ExpectedToken "'(' after function name")))
  | _ => some (.error (.ExpectedToken "identifier after 'fn'"))

/-- `Parser::parse_let`: `let`, identifier, `=`, `expr`. -/
def parse_let (fuel : Nat) (p : Parser) : PResult Expr :=
  let p1 := (p.eat).2
  match p1.eat with
  | (some ⟨.Identifier, some ident, _⟩, p2) =>
    (match p2.eat with
     | (some ⟨.Eq, _, _⟩, p3) =>
       (match parse_expr fuel p3 with
        | none => none
        | some (.error e) => some (.error e)
        | some (.ok (expr, p4)) => some (.ok (.Let ident expr, p4)))
     | _ => some (.error (.ExpectedToken "'=' after identifier in let")))
  | _ => some (.error (.ExpectedToken "identifier after 'let'"))

/-- `Parser::parse_print`: `print`, `(`, `expr`, `)`. -/
def parse_print (fuel : Nat) (p : Parser) : PResult Expr :=
  let p1 := (p.eat).2
  match p1.eat with
  | (some ⟨.LParen, _, _⟩, p2) =>
    (match parse_expr fuel p2 with
     | none => none
     | some (.error e) => some (.error e)
     | some (.ok (expr, p3)) =>
       match p3.eat with
       | (some ⟨.RParen, _, _⟩, p4) => some (.ok (.Print expr, p4))
       | _ => some (.error (.ExpectedToken "')' after print expression")))
  | _ => some (.error (.ExpectedToken "'(' after 'print'"))

/-- `Parser::parse_stmt`: dispatch on the peeked token. -/
def parse_stmt (fuel : Nat) (p : Parser) : PResult Expr :=
  match p.peek with
  | some ⟨.Let, _, _⟩ => parse_let fuel p
  | some ⟨.Fn, _, _⟩ => parse_fn_def fuel p
  | some ⟨.Print, _, _⟩ => parse_print fuel p
  | _ => parse_expr fuel p

/-- The statement loop of `Parser::parse_program`: parse statements while
tokens remain; a `;` after a statement is consumed, any other trailing
token stops the loop (silently keeping what was parsed so far). -/
def parseProgramLoop : Nat → List Expr → Parser → PResult (List Expr)
  | 0, _, _ => none
  | fuel + 1, statements, p =>
    if p.pos < p.tokens.length then
      match parse_stmt fuel p with
      | none => none
      | some (.error e) => some (.error e)
      | some (.ok (s, p1)) =>
        match p1.peek with
        | some tok =>
          if tok.token_type == .Semicolon then
            parseProgramLoop fuel (statements ++ [s]) (p1.eat).2
          else if p1.pos < p1.tokens.length then
            some (.ok (statements ++ [s], p1))
          else
            parseProgramLoop fuel (statements ++ [s]) p1
        | none => parseProgramLoop fuel (statements ++ [s]) p1
    else some (.ok (statements, p))

/-- `Parser::parse_program`: the statement loop, then a single statement
is returned bare and any other count becomes a `Block`. -/
def parse_program (fuel : Nat) (p : Parser) : PResult Expr :=
  match parseProgramLoop fuel [] p with
  | none => none
  | some (.error e) => some (.error e)
  | some (.ok (statements, p1)) =>
    match statements with
    | [s] => some (.ok (s, p1))
    | _ => some (.ok (.Block statements, p1))

/-- End-to-end front end: tokenize, then `parse_program` on a fresh
`Parser`, with fuel that is ample for the nesting any token list of this
length can produce (the Rust parser consumes at least one token before
each nested call, so call depth, and hence the fuel a call path needs, is
bounded by a small multiple of the token count). -/
def parseProgram (src : String) : Option (Except ParseError Expr) :=
  let toks := tokenize src
  match parse_program (20 * toks.length + 20) ⟨toks, 0⟩ with
  | none => none
  | some (.error e) => some (.error e)
  | some (.ok (e, _)) => some (.ok e)

example : parseProgram "1 / 0" = some (.ok (.Binary (.Number 1) .Slash (.Number 0))) := rfl

example : parseProgram "2 + 3 * 4" =
    some (.ok (.Binary (.Number 2) .Plus (.Binary (.Number 3) .Star (.Number 4)))) := rfl

example : parseProgram "fn f(a)\x7ba\x7d" = some (.ok (.FnDef "f" ["a"] (.Var "a"))) := rfl

/-- The evaluator's environment, Rust `HashMap<String, Expr>`: an
association list whose insert prepends, so lookup sees the newest
binding (the map's overwrite semantics). -/
def Env : Type :=
  List (String × Expr)

/-- `env.get(name)` (first, i.e. newest, matching binding). -/
def envGet : Env → String → Option Expr
  | [], _ => none
  | (k, v) :: rest, name => if k == name then some v else envGet rest name

/-- `env.insert(name, v)`. -/
def envInsert (env : Env) (name : String) (v : Expr) : Env :=
  (name, v) :: env

/-- The `i64::MIN` bound: `-(2^63)`. -/
def i64Min : Int :=
  -(2 ^ 63)

/-- Two's-complement wrap-around to the `i64` range, the release-profile
behaviour of Rust `+ - *` on `i64` ("ordinary 64-bit integer
arithmetic"); no claim exercises an overflowing `+ - *`. -/
def wrap64 (n : Int) : Int :=
  (n + 2 ^ 63) % 2 ^ 64 - 2 ^ 63

/-- The arity-mismatch message of the `FnCall` arm of `eval_with_output`. -/
def arityMsg (name : String) (np na : Nat) : String :=
  "Function '" ++ name ++ "' expects " ++ toString np ++ " arguments, got " ++ toString na

/-- The undefined-function message of the `FnCall` arm. -/
def undefFnMsg (name : String) : String :=
  "Undefined function '" ++ name ++ "'"

/-- The undefined-variable message of the `Var` arm. -/
def undefVarMsg (name : String) : String :=
  "Undefined variable '" ++ name ++ "'"

/-- The function-used-as-variable message of the `Var` arm. -/
def fnAsVarMsg (name : String) : String :=
  "Cannot use function '" ++ name
    ++ "' as a variable. Did you mean to call it with parentheses?"

/-- The non-number-binding message of the `Var` arm. -/
def notNumberMsg (name : String) : String :=
  "Variable '" ++ name ++ "' is not a number"

/-- The undefined-variable message of the `Print` arm (a different format
string from the `Var` arm's). -/
def printUndefMsg (name : String) : String :=
  "Undefined variable: " ++ name

mutual

/-- `eval_with_output` from src/parser.rs. State threading mirrors the
Rust `&mut` parameters: the returned environment and output carry every
mutation made before returning, also when the result is an error. `none`
models a panic (the division overflow `i64::MIN / -1`) or exhausted fuel
(the Rust stack overflowing on unbounded recursion). -/
def evalW : Nat → Expr → Env → List String →
    Option (Except ValidationError Int × Env × List String)
  | 0, _, _, _ => none
  | fuel + 1, e, env, out =>
    match e with
    | .Number n => some (.ok n, env, out)
    | .String _ => some (.ok 0, env, out)
    | .Binary lhs op rhs =>
      (match evalW fuel lhs env out with
       | none => none
       | some (.error err, env1, out1) => some (.error err, env1, out1)
       | some (.ok lval, env1, out1) =>
         match evalW fuel rhs env1 out1 with
         | none => none
         | some (.error err, env2, out2) => some (.error err, env2, out2)
         | some (.ok rval, env2, out2) =>
           match op with
           | .Plus => some (.ok (wrap64 (lval + rval)), env2, out2)
           | .Minus => some (.ok (wrap64 (lval - rval)), env2, out2)
           | .Star => some (.ok (wrap64 (lval * rval)), env2, out2)
           | .Slash =>
             if rval == 0 then
               some (.error (.RuntimeError "Division by zero"), env2, out2)
             else if lval == i64Min && rval == -1 then none
             else some (.ok (lval.tdiv rval), env2, out2)
           | _ => some (.error (.RuntimeError "Invalid operator"), env2, out2))
    | .Let name val =>
      (match evalW fuel val env out with
       | none => none
       | some (.error err, env1, out1) => some (.error err, env1, out1)
       | some (.ok v, env1, out1) => some (.ok v, envInsert env1 name (.Number v), out1))
    | .FnDef name params body =>
      some (.ok 0, envInsert env name (.FnDef name params body), out)
    | .FnCall name args =>
      (match envGet env name with
       | some (.FnDef _ params body) =>
         if params.length != args.length then
           some (.error (.RuntimeError (arityMsg name params.length args.length)), env, out)
         else
           match evalArgsLoop fuel (params.zip args) env env out with
           | none => none
           | some (.error err, env1, out1) => some (.error err, env1, out1)
           | some (.ok local_env, env1, out1) =>
             match evalW fuel body local_env out1 with
             | none => none
             | some (r, _, out2) => some (r, env1, out2)
       | _ => some (.error (.RuntimeError (undefFnMsg name)), env, out))
    | .Var name =>
      (match envGet env name with
       | some (.Number n) => some (.ok n, env, out)
       | some (.FnDef _ _ _) => some (.error (.RuntimeError (fnAsVarMsg name)), env, out)
       | some _ => some (.error (.RuntimeError (notNumberMsg name)), env, out)
       | none => some (.error (.RuntimeError (undefVarMsg name)), env, out))
    | .Block statements => evalBlockLoop fuel 0 statements env out
    | .Print inner =>
      match inner with
      | .String s => some (.ok 0, env, out ++ [s])
      | .Number n => some (.ok 0, env, out ++ [toString n])
      | .Var name =>
        (match envGet env name with
         | some (.Number n) => some (.ok 0, env, out ++ [toString n])
         | _ => some (.error (.RuntimeError (printUndefMsg name)), env, out))
      | other =>
        (match evalW fuel other env out with
         | none => none
         | some (.error err, env1, out1) => some (.error err, env1, out1)
         | some (.ok v, env1, out1) => some (.ok 0, env1, out1 ++ [toString v]))

/-- The argument loop of the `FnCall` arm: `local_env` was cloned from
the caller's environment before the loop; each iteration evaluates one
argument in the caller's (mutable) environment and inserts the parameter
binding into `local_env`. -/
def evalArgsLoop : Nat → List (String × Expr) → Env → Env → List String →
    Option (Except ValidationError Env × Env × List String)
  | _, [], local_env, env, out => some (.ok local_env, env, out)
  | 0, _ :: _, _, _, _ => none
  | fuel + 1, (param, argE) :: rest, local_env, env, out =>
    match evalW fuel argE env out with
    | none => none
    | some (.error err, env1, out1) => some (.error err, env1, out1)
    | some (.ok v, env1, out1) =>
      evalArgsLoop fuel rest (envInsert local_env param (.Number v)) env1 out1

/-- The statement loop of the `Block` arm: `result` starts at 0 and is
overwritten by each statement's value. -/
def evalBlockLoop : Nat → Int → List Expr → Env → List String →
    Option (Except ValidationError Int × Env × List String)
  | _, result, [], env, out => some (.ok result, env, out)
  | 0, _, _ :: _, _, _ => none
  | fuel + 1, _, stmt :: rest, env, out =>
    match evalW fuel stmt env out with
    | none => none
    | some (.error err, env1, out1) => some (.error err, env1, out1)
    | some (.ok v, env1, out1) => evalBlockLoop fuel v rest env1 out1

end

example : evalW 10 (.Binary (.Number 2) .Plus (.Binary (.Number 3) .Star (.Number 4))) [] []
    = some (.ok 14, [], []) := rfl

example : evalW 10 (.Binary (.Number 1) .Slash (.Number 0)) [] []
    = some (.error (.RuntimeError "Division by zero"), [], []) := rfl

example : evalW 10 (.Binary (.Number i64Min) .Slash (.Number (-1))) [] [] = none := rfl

mutual

/-- `ResourceValidator::calculate_costs` (src/resource_validator.rs):
the structural walk with fixed per-node tariffs, in AST-traversal
order. -/
def calculate_costs : Expr → List CoinCost
  | .Number _ => []
  | .Var _ => []
  | .String _ => []
  | .FnDef _ _ body => ⟨.Function, 1⟩ :: calculate_costs body
  | .Binary lhs _ rhs => calculate_costs lhs ++ calculate_costs rhs
  | .Let _ val => ⟨.Variable, 1⟩ :: calculate_costs val
  | .FnCall _ args => costsList args
  | .Block statements => costsList statements
  | .Print e => calculate_costs e

/-- The `for`-loop `extend` over a node list in `calculate_costs`
(`FnCall` arguments, `Block` statements). -/
def costsList : List Expr → List CoinCost
  | [] => []
  | e :: rest => calculate_costs e ++ costsList rest

end

/-- The check loop of `ResourceValidator::validate_expression`: the first
entry whose amount exceeds that category's current balance yields the
`InsufficientFunds` error; no balance is decremented between checks. -/
def checkCosts (cm : CoinManager) : List CoinCost → Option CoinError
  | [] => none
  | c :: rest =>
    let available := cm.get_balance c.coin_type
    if available < c.amt then some (.InsufficientFunds c.amt available c.coin_type)
    else checkCosts cm rest

/-- `ResourceValidator::validate_expression`: compute the cost list, check
each entry against the current balances, return the unmerged list on
success. The Rust method takes `&self`: it cannot mutate the ledger, which
the model mirrors by not returning a `CoinManager` at all. -/
def validate_expression (cm : CoinManager) (e : Expr) : Except ValidationError (List CoinCost) :=
  let costs := calculate_costs e
  match checkCosts cm costs with
  | some err => .error (.CoinError err)
  | none => .ok costs

/-- The inner `for _ in 0..cost.amt` loop of `eval_with_validation`:
spend single coins of one category until the entry's amount is spent or a
spend fails; a failed spend leaves the ledger as the previous iterations
left it. -/
def spendOne (cm : CoinManager) (ct : CoinType) : Nat → CoinManager × Option CoinError
  | 0 => (cm, none)
  | n + 1 =>
    match (match ct with
           | .Variable => cm.spend_var_coin
           | .Function => cm.spend_func_coin) with
    | .error err => (cm, some err)
    | .ok cm1 => spendOne cm1 ct n

/-- The outer spend loop of `eval_with_validation`: entries are spent in
list order; the first failing spend aborts with the ledger error, keeping
everything already spent. -/
def spendCosts (cm : CoinManager) : List CoinCost → CoinManager × Option CoinError
  | [] => (cm, none)
  | c :: rest =>
    match spendOne cm c.coin_type c.amt with
    | (cm1, some err) => (cm1, some err)
    | (cm1, none) => spendCosts cm1 rest

/-- `eval_with_validation` from src/parser.rs, the orchestrator: validate,
then spend each cost entry one coin at a time, then evaluate only if every
spend succeeded. A validation or spend failure returns before the
evaluator runs, so environment and output are untouched; a spend failure
is not rolled back. -/
def eval_with_validation (fuel : Nat) (e : Expr) (cm : CoinManager) (env : Env) :
    Option (Except ValidationError (Int × List String) × CoinManager × Env) :=
  match validate_expression cm e with
  | .error err => some (.error err, cm, env)
  | .ok costs =>
    match spendCosts cm costs with
    | (cm1, some cerr) => some (.error (.CoinError cerr), cm1, env)
    | (cm1, none) =>
      match evalW fuel e env [] with
      | none => none
      | some (.error err, env1, _) => some (.error err, cm1, env1)
      | some (.ok r, env1, out) => some (.ok (r, out), cm1, env1)

example : calculate_costs (.Block [.Let "a" (.Number 1), .Let "b" (.Number 2)])
    = [⟨.Variable, 1⟩, ⟨.Variable, 1⟩] := rfl

example : validate_expression (CoinManager.with_balances 1 0)
    (.Block [.Let "a" (.Number 1), .Let "b" (.Number 2)])
    = .ok [⟨.Variable, 1⟩, ⟨.Variable, 1⟩] := rfl

example : eval_with_validation 10 (.Block [.Let "a" (.Number 1), .Let "b" (.Number 2)])
    (CoinManager.with_balances 1 0) []
    = some (.error (.CoinError (.InsufficientFunds 1 0 .Variable)), ⟨some 0, some 0⟩, []) := rfl

/-- Pure argument-evaluation pass: evaluate each argument expression in
the caller's environment, left to right, threading the caller's
environment and the output, and collect the values. This is the
"evaluate the arguments" phase of the `FnCall` contract, separated from
the frame construction. -/
def evalArgsCaller : Nat → List Expr → Env → List String →
    Option (Except ValidationError (List Int) × Env × List String)
  | _, [], env, out => some (.ok [], env, out)
  | 0, _ :: _, _, _ => none
  | fuel + 1, a :: rest, env, out =>
    match evalW fuel a env out with
    | none => none
    | some (.error err, env1, out1) => some (.error err, env1, out1)
    | some (.ok v, env1, out1) =>
      match evalArgsCaller fuel rest env1 out1 with
      | none => none
      | some (.error err, env2, out2) => some (.error err, env2, out2)
      | some (.ok vs, env2, out2) => some (.ok (v :: vs), env2, out2)

/-- Bind each parameter name to its (already evaluated) argument value in
a frame, in order. -/
def insertParams : Env → List String → List Int → Env
  | frame, p :: ps, v :: vs => insertParams (envInsert frame p (.Number v)) ps vs
  | frame, _, _ => frame

/-- The reference cost function, written exactly from the claimed
per-node tariffs (concatenations via `map` and `join`): Number, Var and
String are free; Binary is `costs l ++ costs r`; Let is one Variable coin
then the value's costs; FnDef is one Function coin then the body's costs;
FnCall concatenates the arguments' costs (the call itself is free); Block
concatenates its statements' costs in order; Print is the inner
expression's costs. -/
def costsSpec : Expr → List CoinCost
  | .Number _ => []
  | .Var _ => []
  | .String _ => []
  | .Binary lhs _ rhs => costsSpec lhs ++ costsSpec rhs
  | .Let _ val => ⟨.Variable, 1⟩ :: costsSpec val
  | .FnDef _ _ body => ⟨.Function, 1⟩ :: costsSpec body
  | .FnCall _ args => (args.attach.map (fun x => costsSpec x.1)).flatten
  | .Block statements => (statements.attach.map (fun x => costsSpec x.1)).flatten
  | .Print e => costsSpec e
decreasing_by
  all_goals simp_wf
  all_goals try have h := List.sizeOf_lt_of_mem x.2
  all_goals omega

mutual

/-- The code's cost walk agrees with the claimed tariffs, node level. -/
theorem calcCostsEqAux : (e : Expr) → calculate_costs e = costsSpec e
  | .Number _ => by rw [calculate_costs, costsSpec]
  | .Var _ => by rw [calculate_costs, costsSpec]
  | .String _ => by rw [calculate_costs, costsSpec]
  | .Binary lhs op rhs => by
    rw [calculate_costs, costsSpec, calcCostsEqAux lhs, calcCostsEqAux rhs]
  | .Let name val => by
    rw [calculate_costs, costsSpec, calcCostsEqAux val]
  | .FnDef name params body => by
    rw [calculate_costs, costsSpec, calcCostsEqAux body]
  | .FnCall name args => by
    rw [calculate_costs, costsSpec, costsListEqAux args, List.attach_map_val]
  | .Block statements => by
    rw [calculate_costs, costsSpec, costsListEqAux statements, List.attach_map_val]
  | .Print e => by
    rw [calculate_costs, costsSpec, calcCostsEqAux e]

/-- The code's cost walk agrees with the claimed tariffs, list level. -/
theorem costsListEqAux : (l : List Expr) → costsList l = (l.map costsSpec).flatten
  | [] => rfl
  | e :: rest => by
    rw [costsList, costsListEqAux rest, calcCostsEqAux e, List.map_cons, List.flatten_cons]

end

/-- The check loop of `validate_expression` reports exactly the first cost
entry (in list order) whose amount exceeds that category's static
balance. -/
theorem checkCostsFind (cm : CoinManager) :
    (costs : List CoinCost) → checkCosts cm costs =
      (costs.find? (fun c => decide (cm.get_balance c.coin_type < c.amt))).map
        (fun c => CoinError.InsufficientFunds c.amt (cm.get_balance c.coin_type) c.coin_type)
  | [] => rfl
  | c :: rest => by
    rw [checkCosts]
    by_cases h : cm.get_balance c.coin_type < c.amt
    · rw [if_pos h, List.find?_cons_of_pos _ (by simpa using h)]
      rfl
    · rw [if_neg h, List.find?_cons_of_neg _ (by simpa using h), checkCostsFind cm rest]

/-- The interleaved argument loop of the `FnCall` arm (evaluate one
argument, insert one parameter binding, repeat) equals the two separated
phases: evaluate every argument in the caller's environment left to
right, then bind all parameters in the pre-existing frame. Holds because
argument evaluation never reads `local_env`. -/
theorem evalArgsLoopEq : (fuel : Nat) → (params : List String) → (args : List Expr) →
    (local_env env : Env) → (out : List String) → params.length = args.length →
    evalArgsLoop fuel (params.zip args) local_env env out =
      (match evalArgsCaller fuel args env out with
       | none => none
       | some (.error err, env1, out1) => some (.error err, env1, out1)
       | some (.ok vals, env1, out1) =>
         some (.ok (insertParams local_env params vals), env1, out1))
  | fuel, [], [], local_env, env, out, _ => by
    cases fuel <;> rfl
  | _, [], _ :: _, _, _, _, h => by simp at h
  | _, _ :: _, [], _, _, _, h => by simp at h
  | 0, p :: ps, a :: as, local_env, env, out, _ => rfl
  | fuel + 1, p :: ps, a :: as, local_env, env, out, h => by
    have h1 : ps.length = as.length := by simpa using h
    show evalArgsLoop (fuel + 1) ((p, a) :: ps.zip as) local_env env out = _
    rw [evalArgsLoop, evalArgsCaller]
    cases hw : evalW fuel a env out with
    | none => rfl
    | some r =>
      obtain ⟨res, env1, out1⟩ := r
      cases res with
      | error err => rfl
      | ok v =>
        dsimp only
        rw [evalArgsLoopEq fuel ps as (envInsert local_env p (.Number v)) env1 out1 h1]
        cases hc : evalArgsCaller fuel as env1 out1 with
        | none => rfl
        | some r2 =>
          obtain ⟨res2, env2, out2⟩ := r2
          cases res2 with
          | error err => rfl
          | ok vs => rfl

/-- C1: `validate_expression` computes the cost list and checks each entry
independently against the ledger's current static balance for that entry's
category — no merging of same-category entries, no decrementing between
checks; the first entry in list order whose amount exceeds the available
balance determines the `InsufficientFunds{required, available, category}`
error; and a cost list of two `Variable` entries of amount 1 each passes
validation against a `Variable` balance of exactly 1. -/
theorem c1_validation_checks_entries_independently :
    (∀ (cm : CoinManager) (e : Expr),
      validate_expression cm e =
        match (calculate_costs e).find?
            (fun c => decide (cm.get_balance c.coin_type < c.amt)) with
        | some c =>
          .error (.CoinError (.InsufficientFunds c.amt (cm.get_balance c.coin_type) c.coin_type))
        | none => .ok (calculate_costs e))
    ∧ validate_expression (CoinManager.with_balances 1 0)
        (.Block [.Let "a" (.Number 1), .Let "b" (.Number 2)])
        = .ok [⟨.Variable, 1⟩, ⟨.Variable, 1⟩] := by
  constructor
  · intro cm e
    rw [validate_expression, checkCostsFind]
    cases (calculate_costs e).find? (fun c => decide (cm.get_balance c.coin_type < c.amt)) with
    | none => rfl
    | some c => rfl
  · rfl

/-- C2: after successful validation the orchestrator spends the cost
entries in list order, one coin at a time, each spend immediately
decrementing the ledger; a failing spend aborts with the ledger's error
and without rolling back already-spent entries (environment untouched, so
the evaluator never ran); the evaluator is invoked exactly when every
entry spent successfully. Concretely, with balance `{Variable: 1}` and
cost list `[Variable:1, Variable:1]` (two sequential lets in a block),
validation passes, the first spend succeeds, the second fails, and the
ledger is left at `Variable: 0`. -/
theorem c2_spend_in_order_no_rollback :
    (∀ (fuel : Nat) (e : Expr) (cm : CoinManager) (env : Env)
        (costs : List CoinCost) (cm1 : CoinManager) (err : CoinError),
      validate_expression cm e = .ok costs →
      spendCosts cm costs = (cm1, some err) →
      eval_with_validation fuel e cm env = some (.error (.CoinError err), cm1, env))
    ∧ (∀ (fuel : Nat) (e : Expr) (cm : CoinManager) (env : Env)
        (costs : List CoinCost) (cm1 : CoinManager),
      validate_expression cm e = .ok costs →
      spendCosts cm costs = (cm1, none) →
      eval_with_validation fuel e cm env =
        match evalW fuel e env [] with
        | none => none
        | some (.error err, env1, _) => some (.error err, cm1, env1)
        | some (.ok r, env1, out) => some (.ok (r, out), cm1, env1))
    ∧ validate_expression (CoinManager.with_balances 1 0)
        (.Block [.Let "a" (.Number 1), .Let "b" (.Number 2)])
        = .ok [⟨.Variable, 1⟩, ⟨.Variable, 1⟩]
    ∧ eval_with_validation 10 (.Block [.Let "a" (.Number 1), .Let "b" (.Number 2)])
        (CoinManager.with_balances 1 0) []
        = some (.error (.CoinError (.InsufficientFunds 1 0 .Variable)), ⟨some 0, some 0⟩, [])
    ∧ (CoinManager.mk (some 0) (some 0)).get_balance .Variable = 0 := by
  refine ⟨?_, ?_, rfl, rfl, rfl⟩
  · intro fuel e cm env costs cm1 err hv hs
    rw [eval_with_validation, hv]
    dsimp only
    rw [hs]
  · intro fuel e cm env costs cm1 hv hs
    rw [eval_with_validation, hv]
    dsimp only
    rw [hs]

/-- C2 witness: the non-atomic-spend scenario, with the first conjunct of
the theorem applied at it. -/
theorem c2_spend_in_order_no_rollback_witness :
    validate_expression (CoinManager.with_balances 1 0)
        (.Block [.Let "a" (.Number 1), .Let "b" (.Number 2)])
        = .ok [⟨.Variable, 1⟩, ⟨.Variable, 1⟩]
    ∧ spendCosts (CoinManager.with_balances 1 0) [⟨.Variable, 1⟩, ⟨.Variable, 1⟩]
        = (⟨some 0, some 0⟩, some (.InsufficientFunds 1 0 .Variable))
    ∧ eval_with_validation 10 (.Block [.Let "a" (.Number 1), .Let "b" (.Number 2)])
        (CoinManager.with_balances 1 0) []
        = some (.error (.CoinError (.InsufficientFunds 1 0 .Variable)), ⟨some 0, some 0⟩, []) :=
  ⟨rfl, rfl,
    c2_spend_in_order_no_rollback.1 10 (.Block [.Let "a" (.Number 1), .Let "b" (.Number 2)])
      (CoinManager.with_balances 1 0) [] [⟨.Variable, 1⟩, ⟨.Variable, 1⟩]
      ⟨some 0, some 0⟩ (.InsufficientFunds 1 0 .Variable) rfl rfl⟩

/-- C3 counterexample: tokenizing and parsing
`"fn f(a) { let b = a + 1; b }"` does not succeed — a function body is a
single `expr`, so `parse_factor` rejects the `let` token with
`UnexpectedToken` (carrying the token's debug text). -/
theorem c3_counterexample_fn_body_let_fails_to_parse :
    parseProgram "fn f(a) \x7b let b = a + 1; b \x7d"
      = some (.error (.UnexpectedToken
          "Token \x7b token_type: Let, value: Some(\"let\"), pos: (1, 13) \x7d")) := rfl

/-- C3 amended: parsing `"fn f(a) { let b = a + 1; b }"` fails with
`ParseError::UnexpectedToken` at the `let` token (function bodies are
single expressions); evaluating the corresponding hand-built AST (an
`FnDef` whose body is the two-statement `Block`) defines `f`, then
executing `f(10)` in that environment yields 11, and afterwards `b` is
absent from the session environment — looking it up fails as an
undefined variable. -/
theorem c3_snapshot_scoping_amended :
    parseProgram "fn f(a) \x7b let b = a + 1; b \x7d"
      = some (.error (.UnexpectedToken
          "Token \x7b token_type: Let, value: Some(\"let\"), pos: (1, 13) \x7d"))
    ∧ evalW 10
        (.FnDef "f" ["a"] (.Block [.Let "b" (.Binary (.Var "a") .Plus (.Number 1)), .Var "b"]))
        [] []
      = some (.ok 0,
          [("f", .FnDef "f" ["a"]
              (.Block [.Let "b" (.Binary (.Var "a") .Plus (.Number 1)), .Var "b"]))], [])
    ∧ evalW 10 (.FnCall "f" [.Number 10])
        [("f", .FnDef "f" ["a"]
            (.Block [.Let "b" (.Binary (.Var "a") .Plus (.Number 1)), .Var "b"]))] []
      = some (.ok 11,
          [("f", .FnDef "f" ["a"]
              (.Block [.Let "b" (.Binary (.Var "a") .Plus (.Number 1)), .Var "b"]))], [])
    ∧ envGet
        [("f", .FnDef "f" ["a"]
            (.Block [.Let "b" (.Binary (.Var "a") .Plus (.Number 1)), .Var "b"]))] "b"
      = none
    ∧ evalW 10 (.Var "b")
        [("f", .FnDef "f" ["a"]
            (.Block [.Let "b" (.Binary (.Var "a") .Plus (.Number 1)), .Var "b"]))] []
      = some (.error (.RuntimeError (undefVarMsg "b")),
          [("f", .FnDef "f" ["a"]
              (.Block [.Let "b" (.Binary (.Var "a") .Plus (.Number 1)), .Var "b"]))], []) :=
  ⟨rfl, rfl, rfl, rfl, rfl⟩

/-- C4: the lexer produces a single Number token for
`"9223372036854775808"` (which is 2^63, one past `i64::MAX`), Rust
`str::parse::<i64>` fails on it, and `parse_program` therefore panics on
the `unwrap` in `parse_factor` (modelled as `none`) instead of returning
a `ParseError` value. -/
theorem c4_parse_program_panics_on_i64_overflow :
    tokenize "9223372036854775808"
        = [⟨.Number, some "9223372036854775808", (1, 19)⟩]
    ∧ parseI64 "9223372036854775808" = none
    ∧ parseProgram "9223372036854775808" = none
    ∧ parseProgram "9223372036854775807" = some (.ok (.Number 9223372036854775807)) :=
  ⟨rfl, rfl, rfl, rfl⟩

/-- C5 counterexample: the callee frame is cloned from the caller's
environment at call entry, before the arguments are evaluated. With
`f = fn(p){y}` and the (AST-level) argument `let y = 5`, the code's
evaluation fails with an undefined-variable error for `y`, while the
claimed procedure — frame copied from the environment as it exists
after argument evaluation — would yield `5`. -/
theorem c5_counterexample_frame_snapshot_taken_before_args :
    (evalW 10 (.FnCall "f" [.Let "y" (.Number 5)])
        [("f", .FnDef "f" ["p"] (.Var "y"))] []).map (fun x => x.1)
      = some (.error (.RuntimeError (undefVarMsg "y")))
    ∧ (match evalArgsCaller 9 [.Let "y" (.Number 5)]
          [("f", .FnDef "f" ["p"] (.Var "y"))] [] with
       | some (.ok vals, env1, out1) =>
         (evalW 9 (.Var "y") (insertParams env1 ["p"] vals) out1).map (fun x => x.1)
       | _ => none)
      = some (.ok 5) :=
  ⟨rfl, rfl⟩

/-- C5 amended: for every `FnCall` resolving to an `FnDef` of matching
arity, evaluation equals: evaluate the arguments in the caller's
environment left to right (threading its mutations); build the callee
frame by copying the caller's environment as it existed at call entry
(before argument evaluation) and binding each parameter to its argument
value in that copy; evaluate the body against the frame; the caller
keeps the post-argument environment. -/
theorem c5_fncall_frame_from_entry_snapshot :
    ∀ (fuel : Nat) (name : String) (args : List Expr) (env : Env) (out : List String)
      (fname : String) (params : List String) (body : Expr),
      envGet env name = some (.FnDef fname params body) →
      params.length = args.length →
      evalW (fuel + 1) (.FnCall name args) env out =
        (match evalArgsCaller fuel args env out with
         | none => none
         | some (.error err, env1, out1) => some (.error err, env1, out1)
         | some (.ok vals, env1, out1) =>
           match evalW fuel body (insertParams env params vals) out1 with
           | none => none
           | some (r, _, out2) => some (r, env1, out2)) := by
  intro fuel name args env out fname params body hlook hlen
  rw [evalW]
  try dsimp only
  rw [hlook]
  try dsimp only
  have hne : (params.length != args.length) = false := by simp [hlen]
  rw [hne]
  try dsimp only
  rw [evalArgsLoopEq fuel params args env env out hlen]
  cases hc : evalArgsCaller fuel args env out with
  | none => rfl
  | some r =>
    obtain ⟨res, env1, out1⟩ := r
    cases res with
    | error err => rfl
    | ok vals => rfl

/-- C5 witness: the amended theorem applied to a concrete call
`g(4)` with `g = fn(x){x + 1}`. -/
theorem c5_fncall_frame_from_entry_snapshot_witness :
    envGet [("g", .FnDef "g" ["x"] (.Binary (.Var "x") .Plus (.Number 1)))] "g"
        = some (.FnDef "g" ["x"] (.Binary (.Var "x") .Plus (.Number 1)))
    ∧ evalW 10 (.FnCall "g" [.Number 4])
        [("g", .FnDef "g" ["x"] (.Binary (.Var "x") .Plus (.Number 1)))] []
        = some (.ok 5, [("g", .FnDef "g" ["x"] (.Binary (.Var "x") .Plus (.Number 1)))], []) :=
  ⟨rfl,
    (c5_fncall_frame_from_entry_snapshot 9 "g" [.Number 4]
        [("g", .FnDef "g" ["x"] (.Binary (.Var "x") .Plus (.Number 1)))] []
        "g" ["x"] (.Binary (.Var "x") .Plus (.Number 1)) rfl rfl).trans rfl⟩

/-- C6: for every function call that returns — with the body succeeding
or failing — the caller's environment after the call is exactly the
environment produced by argument evaluation: the body's frame (a one-time
copy, in the model a value passed to the body's evaluation and then
dropped) contributes nothing, so no binding the body introduced or
overwrote reaches the caller. -/
theorem c6_callee_bindings_invisible_to_caller :
    ∀ (fuel : Nat) (name : String) (args : List Expr) (env : Env) (out : List String)
      (fname : String) (params : List String) (body : Expr)
      (local_env env1 : Env) (out1 : List String)
      (r : Except ValidationError Int) (envB : Env) (out2 : List String),
      envGet env name = some (.FnDef fname params body) →
      params.length = args.length →
      evalArgsLoop fuel (params.zip args) env env out = some (.ok local_env, env1, out1) →
      evalW fuel body local_env out1 = some (r, envB, out2) →
      evalW (fuel + 1) (.FnCall name args) env out = some (r, env1, out2) := by
  intro fuel name args env out fname params body local_env env1 out1 r envB out2
  intro hlook hlen hargs hbody
  rw [evalW]
  try dsimp only
  rw [hlook]
  try dsimp only
  have hne : (params.length != args.length) = false := by simp [hlen]
  rw [hne]
  try dsimp only
  rw [hargs]
  try dsimp only
  rw [hbody]
  rfl

/-- C6 witness: `f = fn(a){ let b = 7 }` called as `f(1)`; the body binds
`b` in its frame and returns 7, and the caller's environment after the
call is unchanged (no `b`). -/
theorem c6_callee_bindings_invisible_to_caller_witness :
    envGet [("f", .FnDef "f" ["a"] (.Let "b" (.Number 7)))] "f"
        = some (.FnDef "f" ["a"] (.Let "b" (.Number 7)))
    ∧ evalArgsLoop 5 (["a"].zip [.Number 1])
        [("f", .FnDef "f" ["a"] (.Let "b" (.Number 7)))]
        [("f", .FnDef "f" ["a"] (.Let "b" (.Number 7)))] []
        = some (.ok [("a", .Number 1), ("f", .FnDef "f" ["a"] (.Let "b" (.Number 7)))],
            [("f", .FnDef "f" ["a"] (.Let "b" (.Number 7)))], [])
    ∧ evalW 5 (.Let "b" (.Number 7))
        [("a", .Number 1), ("f", .FnDef "f" ["a"] (.Let "b" (.Number 7)))] []
        = some (.ok 7,
            [("b", .Number 7), ("a", .Number 1),
              ("f", .FnDef "f" ["a"] (.Let "b" (.Number 7)))], [])
    ∧ evalW 6 (.FnCall "f" [.Number 1])
        [("f", .FnDef "f" ["a"] (.Let "b" (.Number 7)))] []
        = some (.ok 7, [("f", .FnDef "f" ["a"] (.Let "b" (.Number 7)))], []) :=
  ⟨rfl, rfl, rfl,
    c6_callee_bindings_invisible_to_caller 5 "f" [.Number 1]
      [("f", .FnDef "f" ["a"] (.Let "b" (.Number 7)))] []
      "f" ["a"] (.Let "b" (.Number 7))
      [("a", .Number 1), ("f", .FnDef "f" ["a"] (.Let "b" (.Number 7)))]
      [("f", .FnDef "f" ["a"] (.Let "b" (.Number 7)))] []
      (.ok 7)
      [("b", .Number 7), ("a", .Number 1), ("f", .FnDef "f" ["a"] (.Let "b" (.Number 7)))] []
      rfl rfl rfl rfl⟩

/-- C7: for every expression, the code's `calculate_costs` equals the
reference tariff function `costsSpec` written from the claimed per-node
costs: Number/Var/String free; Binary is `costs l ++ costs r`; Let is one
Variable coin then the value's costs; FnDef is one Function coin then the
body's costs; FnCall is the concatenation of the arguments' costs (the
call itself free); Block is the concatenation of its statements' costs in
order; Print is the inner expression's costs. -/
theorem c7_calculate_costs_matches_tariffs : ∀ e : Expr, calculate_costs e = costsSpec e :=
  calcCostsEqAux

/-- C8: `validate_expression` never mutates the ledger (the Rust method
takes `&self`; in the model it consumes the ledger read-only and returns
no ledger at all): when validation fails, the orchestrator returns the
error with the ledger exactly as it was given, before any spend.
Concretely, with balances `{Variable: 1, Function: 0}`, `"fn f(a){a}"`
parses to an `FnDef` whose validation fails with
`InsufficientFunds{required: 1, available: 0, category: Function}` and
the pipeline leaves the ledger unchanged. -/
theorem c8_validation_never_mutates_ledger :
    (∀ (fuel : Nat) (e : Expr) (cm : CoinManager) (env : Env) (err : ValidationError),
      validate_expression cm e = .error err →
      eval_with_validation fuel e cm env = some (.error err, cm, env))
    ∧ parseProgram "fn f(a)\x7ba\x7d" = some (.ok (.FnDef "f" ["a"] (.Var "a")))
    ∧ validate_expression (CoinManager.with_balances 1 0) (.FnDef "f" ["a"] (.Var "a"))
        = .error (.CoinError (.InsufficientFunds 1 0 .Function))
    ∧ eval_with_validation 10 (.FnDef "f" ["a"] (.Var "a")) (CoinManager.with_balances 1 0) []
        = some (.error (.CoinError (.InsufficientFunds 1 0 .Function)),
            CoinManager.with_balances 1 0, []) := by
  refine ⟨?_, rfl, rfl, rfl⟩
  intro fuel e cm env err hv
  rw [eval_with_validation, hv]

/-- C8 witness: the failing-validation conjunct of the theorem applied to
the `{Variable: 1, Function: 0}` scenario. -/
theorem c8_validation_never_mutates_ledger_witness :
    validate_expression (CoinManager.with_balances 1 0) (.FnDef "f" ["a"] (.Var "a"))
        = .error (.CoinError (.InsufficientFunds 1 0 .Function))
    ∧ eval_with_validation 7 (.FnDef "f" ["a"] (.Var "a")) (CoinManager.with_balances 1 0) []
        = some (.error (.CoinError (.InsufficientFunds 1 0 .Function)),
            CoinManager.with_balances 1 0, []) :=
  ⟨rfl,
    c8_validation_never_mutates_ledger.1 7 (.FnDef "f" ["a"] (.Var "a"))
      (CoinManager.with_balances 1 0) []
      (.CoinError (.InsufficientFunds 1 0 .Function)) rfl⟩

/-- C9 counterexample: at the (in-range `i64`) operands
`i64::MIN / -1` the right operand is not 0, yet evaluation neither
errors with the division-by-zero `RuntimeError` nor yields a quotient:
Rust's checked division overflows and panics (`none` in the model). -/
theorem c9_counterexample_min_div_minus_one_panics :
    evalW 10 (.Binary (.Number i64Min) .Slash (.Number (-1))) [] [] = none
    ∧ (-1 : Int) ≠ 0 :=
  ⟨rfl, by decide⟩

/-- C9 amended: when the left then the right operand of a `/` node
evaluate to values `lv` and `rv`, the division fails with the
division-by-zero `RuntimeError` exactly when `rv = 0`; otherwise, except
at `lv = i64::MIN, rv = -1` where the code panics on overflow, it yields
the truncating quotient. The `"1 / 0"` pipeline fails with the
division-by-zero `RuntimeError` and spends no coins: its cost list is
empty and the ledger is returned unchanged. -/
theorem c9_division_by_zero_and_truncation :
    (∀ (fuel : Nat) (lhs rhs : Expr) (env : Env) (out : List String)
        (lv : Int) (env1 : Env) (out1 : List String)
        (rv : Int) (env2 : Env) (out2 : List String),
      evalW fuel lhs env out = some (.ok lv, env1, out1) →
      evalW fuel rhs env1 out1 = some (.ok rv, env2, out2) →
      evalW (fuel + 1) (.Binary lhs .Slash rhs) env out =
        (if rv = 0 then some (.error (.RuntimeError "Division by zero"), env2, out2)
         else if lv = i64Min ∧ rv = -1 then none
         else some (.ok (lv.tdiv rv), env2, out2)))
    ∧ parseProgram "1 / 0" = some (.ok (.Binary (.Number 1) .Slash (.Number 0)))
    ∧ calculate_costs (.Binary (.Number 1) .Slash (.Number 0)) = []
    ∧ eval_with_validation 10 (.Binary (.Number 1) .Slash (.Number 0)) CoinManager.new []
        = some (.error (.RuntimeError "Division by zero"), CoinManager.new, []) := by
  refine ⟨?_, rfl, rfl, rfl⟩
  intro fuel lhs rhs env out lv env1 out1 rv env2 out2 hl hr
  rw [evalW]
  try dsimp only
  rw [hl]
  try dsimp only
  rw [hr]
  try dsimp only
  by_cases h0 : rv = 0
  · simp [h0]
  · rw [if_neg h0]
    have h0b : (rv == 0) = false := by simp [h0]
    rw [h0b]
    try dsimp only
    by_cases h1 : lv = i64Min ∧ rv = -1
    · rw [if_pos h1]
      have h1b : (lv == i64Min && rv == -1) = true := by
        simp [h1.1, h1.2]
      rw [h1b]
      rfl
    · rw [if_neg h1]
      have h1b : (lv == i64Min && rv == -1) = false := by
        rcases not_and_or.mp h1 with h | h <;> simp [h]
      rw [h1b]
      rfl

/-- C9 witness: the division conjunct of the amended theorem applied to
`7 / 2`, giving the truncating quotient 3. -/
theorem c9_division_by_zero_and_truncation_witness :
    evalW 3 (.Binary (.Number 7) .Slash (.Number 2)) [] [] = some (.ok 3, [], []) :=
  (c9_division_by_zero_and_truncation.1 2 (.Number 7) (.Number 2) [] []
    7 [] [] 2 [] [] rfl rfl).trans rfl

/-- Reading a balance after inserting the same category gives the
inserted value. -/
theorem get_balance_insert_same (cm : CoinManager) (ct : CoinType) (v : Nat) :
    (cm.insertBalance ct v).get_balance ct = v := by
  cases ct <;> rfl

/-- Reading a balance after inserting the other category is unchanged. -/
theorem get_balance_insert_other (cm : CoinManager) (ct ct2 : CoinType) (v : Nat)
    (h : ct2 ≠ ct) : (cm.insertBalance ct v).get_balance ct2 = cm.get_balance ct2 := by
  cases ct <;> cases ct2 <;> first | rfl | exact absurd rfl h

/-- C10: `spend_coins` fails with
`InsufficientFunds{required: amount, available: balance, coin_type}`
exactly when the category's current balance is strictly below the
amount — and then returns before mutating, so the ledger is unchanged
(in the model the error carries no successor state at all); on success
the category's balance decreases by exactly the amount and the other
category's balance is untouched. -/
theorem c10_spend_coins_contract :
    ∀ (cm : CoinManager) (ct : CoinType) (amt : Nat),
      (∀ err : CoinError, cm.spend_coins ct amt = .error err ↔
        cm.get_balance ct < amt ∧ err = .InsufficientFunds amt (cm.get_balance ct) ct)
      ∧ (∀ cm2 : CoinManager, cm.spend_coins ct amt = .ok cm2 →
          cm2.get_balance ct = cm.get_balance ct - amt
          ∧ ∀ ct2 : CoinType, ct2 ≠ ct → cm2.get_balance ct2 = cm.get_balance ct2)
      ∧ (amt ≤ cm.get_balance ct ↔ ∃ cm2, cm.spend_coins ct amt = .ok cm2) := by
  intro cm ct amt
  refine ⟨?_, ?_, ?_⟩
  · intro err
    rw [CoinManager.spend_coins]
    by_cases h : cm.get_balance ct < amt
    · rw [if_pos h]
      constructor
      · intro he
        exact ⟨h, (Except.error.injEq _ _).mp he.symm⟩
      · intro ⟨_, he⟩
        rw [he]
    · rw [if_neg h]
      constructor
      · intro he
        exact absurd he (by simp)
      · intro ⟨hlt, _⟩
        exact absurd hlt h
  · intro cm2 hok
    rw [CoinManager.spend_coins] at hok
    by_cases h : cm.get_balance ct < amt
    · rw [if_pos h] at hok
      exact absurd hok (by simp)
    · rw [if_neg h] at hok
      have hcm2 : cm2 = cm.insertBalance ct (cm.get_balance ct - amt) :=
        ((Except.ok.injEq _ _).mp hok).symm
      subst hcm2
      exact ⟨get_balance_insert_same cm ct _,
        fun ct2 h2 => get_balance_insert_other cm ct ct2 _ h2⟩
  · rw [CoinManager.spend_coins]
    by_cases h : cm.get_balance ct < amt
    · rw [if_pos h]
      constructor
      · intro hle
        exact absurd h (Nat.not_lt.mpr hle)
      · intro ⟨cm2, hok⟩
        exact absurd hok (by simp)
    · rw [if_neg h]
      constructor
      · intro _
        exact ⟨_, rfl⟩
      · intro _
        exact Nat.not_lt.mp h

/-- C10 witness: with balances `{Variable: 5, Function: 3}`, spending 7
Variable coins fails with `InsufficientFunds{7, 5, Variable}`, and
spending 2 succeeds, leaving `Variable` at 3 and `Function` untouched. -/
theorem c10_spend_coins_contract_witness :
    (CoinManager.with_balances 5 3).spend_coins .Variable 7
        = .error (.InsufficientFunds 7 5 .Variable)
    ∧ (CoinManager.mk (some 3) (some 3)).get_balance .Variable
        = (CoinManager.with_balances 5 3).get_balance .Variable - 2
    ∧ (CoinManager.mk (some 3) (some 3)).get_balance .Function
        = (CoinManager.with_balances 5 3).get_balance .Function :=
  ⟨((c10_spend_coins_contract (CoinManager.with_balances 5 3) .Variable 7).1
      (.InsufficientFunds 7 5 .Variable)).mpr ⟨by decide, rfl⟩,
    ((c10_spend_coins_contract (CoinManager.with_balances 5 3) .Variable 2).2.1
      (CoinManager.mk (some 3) (some 3)) rfl).1,
    ((c10_spend_coins_contract (CoinManager.with_balances 5 3) .Variable 2).2.1
      (CoinManager.mk (some 3) (some 3)) rfl).2 .Function (by decide)⟩
